import Mathlib

/-!
# Shallow embedding of the NYC Datasets Dashboard API (src/main.py, src/database.py)

The repository is a read-only analytics service: a single SQL table of dataset
records (`nyc_datasets`, declared in `database.py`) queried by a set of GET
handlers in `main.py`.  We embed the table as a list of records with optional
fields (SQL `NULL` = `Option.none`) and each handler as a pure function on that
list.

Modelling conventions, fixed once for the whole file:
* The store is a `List Dataset`; the list order stands for the table's scan
  order, which makes every query a deterministic function.
* `ORDER BY col DESC` is Postgres semantics (the `DATABASE_URL` is a
  `postgresql://` URL): descending with `NULL`s first.  `descLe` is that
  ordering on `Option Int`; sorting is a stable insertion sort.
* SQL aggregates exclude `NULL`s; a sum or average over no non-null values is
  `NULL` (`sqlSum`, `sqlAvg`).
* Python `round(float(x), 2)` is idealised as exact decimal rounding on `Rat`
  with ties to even (`pyRound2`).
* A Python exception in a handler (the only reachable one is `len(None)` in
  the engagement-metrics list comprehension) is an `Option.none` result,
  rendered as a server error by the dispatcher `handle`.
-/

/-- A calendar timestamp, reduced to the fields the code inspects:
`extract('year', ...)` reads the year, `isoformat()` renders the date. -/
structure PDate where
  year : Int
  month : Nat
  day : Nat
deriving DecidableEq

/-- One row of the `nyc_datasets` table (class `Dataset` in `database.py`).
Every column except the primary key is nullable. -/
structure Dataset where
  id : String
  name : Option String
  description : Option String
  attribution : Option String
  type : Option String
  data_updated_at : Option PDate
  page_views_last_week : Option Int
  page_views_last_month : Option Int
  page_views_total : Option Int
  download_count : Option Int
  publication_date : Option PDate
  domain_category : Option String
  domain_tags : Option String
  dataset_information_agency : Option String
  link : Option String
deriving DecidableEq

abbrev Store := List Dataset

/-- Postgres `ORDER BY x DESC` as a total preorder on nullable integers:
`descLe a b` says `a` may appear no later than `b`.  Larger values come first
and `NULL` sorts before every value (`NULLS FIRST` is the Postgres default
for descending order). -/
def descLe : Option Int → Option Int → Prop
  | none, _ => True
  | some _, none => False
  | some x, some y => y ≤ x

instance : DecidableRel descLe := fun a b =>
  match a, b with
  | none, _ => isTrue trivial
  | some _, none => isFalse fun h => h
  | some x, some y => inferInstanceAs (Decidable (y ≤ x))

theorem descLe_total (a b : Option Int) : descLe a b ∨ descLe b a := by
  cases a <;> cases b <;> simp [descLe]
  exact le_total _ _

theorem descLe_trans {a b c : Option Int} (h₁ : descLe a b) (h₂ : descLe b c) :
    descLe a c := by
  cases a <;> cases b <;> cases c <;> simp_all [descLe]
  exact le_trans h₂ h₁

/-- Ordering of records by a nullable integer key, descending, nulls first. -/
def byKey (f : α → Option Int) (a b : α) : Prop := descLe (f a) (f b)

instance (f : α → Option Int) : DecidableRel (byKey f) := fun a b =>
  inferInstanceAs (Decidable (descLe (f a) (f b)))

instance (f : α → Option Int) : IsTotal α (byKey f) :=
  ⟨fun a b => descLe_total (f a) (f b)⟩

instance (f : α → Option Int) : IsTrans α (byKey f) :=
  ⟨fun _ _ _ h₁ h₂ => descLe_trans h₁ h₂⟩

/-- `SELECT ... ORDER BY f DESC`: a stable sort of the store by `byKey f`. -/
def orderByDesc (f : Dataset → Option Int) (s : Store) : Store :=
  List.insertionSort (byKey f) s

/-- SQL `SUM` over a nullable column: `NULL`s are skipped, and the sum of no
non-null values (empty table or all-`NULL` column) is `NULL`. -/
def sqlSum (f : Dataset → Option Int) (s : Store) : Option Int :=
  match s.filterMap f with
  | [] => none
  | vs => some vs.sum

/-- SQL `AVG` over a nullable column: `NULL`s are skipped, `NULL` when no
non-null value exists. -/
def sqlAvg (f : Dataset → Option Int) (s : Store) : Option Rat :=
  match s.filterMap f with
  | [] => none
  | vs => some ((vs.sum : Rat) / (vs.length : Rat))

/-- Round to the nearest integer, ties to even (Python `round`'s behaviour,
idealised to exact arithmetic). -/
def roundHalfEven (q : Rat) : Int :=
  let n := q.floor
  let frac := q - (n : Rat)
  if frac < 1/2 then n
  else if 1/2 < frac then n + 1
  else if n % 2 = 0 then n else n + 1

/-- Python `round(float(x), 2)` on an exact rational. -/
def pyRound2 (q : Rat) : Rat := (roundHalfEven (q * 100) : Rat) / 100

/-! ## `/api/datasets/top-viewed` and `/api/datasets/top-downloaded` -/

/-- Output row of the two top-N endpoints. -/
structure TopRow where
  id : String
  name : Option String
  page_views_total : Option Int
  download_count : Option Int
  agency : Option String
  category : Option String
deriving DecidableEq

def topRowOf (d : Dataset) : TopRow :=
  { id := d.id
    name := d.name
    page_views_total := d.page_views_total
    download_count := d.download_count
    agency := d.dataset_information_agency
    category := d.domain_category }

/-- `GET /api/datasets/top-viewed?limit=N` (`get_top_viewed_datasets`):
all records ordered by `page_views_total` descending, first `limit` taken,
projected to the output fields. -/
def get_top_viewed_datasets (limit : Nat) (s : Store) : List TopRow :=
  ((orderByDesc (·.page_views_total) s).take limit).map topRowOf

/-- `GET /api/datasets/top-downloaded?limit=N` (`get_top_downloaded_datasets`). -/
def get_top_downloaded_datasets (limit : Nat) (s : Store) : List TopRow :=
  ((orderByDesc (·.download_count) s).take limit).map topRowOf

/-! ## `/api/datasets/search` -/

/-- SQL `name ILIKE '%q%'`: case-insensitive containment; a `NULL` name never
matches. -/
def ilikeName (q : String) (d : Dataset) : Prop :=
  match d.name with
  | none => False
  | some n => List.IsInfix q.toLower.toList n.toLower.toList

instance (q : String) (d : Dataset) : Decidable (ilikeName q d) := by
  unfold ilikeName
  cases d.name
  · exact isFalse fun h => h
  · exact List.decidableInfix _ _

/-- Output row of the search endpoint. -/
structure SearchRow where
  id : String
  name : Option String
  description : Option String
  agency : Option String
  category : Option String
  page_views_total : Option Int
  download_count : Option Int
  publication_date : Option String
  link : Option String
deriving DecidableEq

/-- `publication_date.isoformat()` on the date part of the timestamp. -/
def isoformat (d : PDate) : String :=
  toString d.year ++ "-" ++ toString d.month ++ "-" ++ toString d.day

/-- The description field of a search row:
`d.description[:200] + "..." if d.description and len(d.description) > 200
else d.description`.  (A `None` or empty description is passed through.) -/
def truncDescription : Option String → Option String
  | none => none
  | some s => if 200 < s.length then some (s.take 200 ++ "...") else some s

def searchRowOf (d : Dataset) : SearchRow :=
  { id := d.id
    name := d.name
    description := truncDescription d.description
    agency := d.dataset_information_agency
    category := d.domain_category
    page_views_total := d.page_views_total
    download_count := d.download_count
    publication_date := d.publication_date.map isoformat
    link := d.link }

/-- `GET /api/datasets/search` (`search_datasets`): each non-empty parameter
adds a filter (Python string truthiness: the filter is applied iff the
parameter is not `""`), then order by total views descending and take
`limit`. -/
def search_datasets (q category agency : String) (limit : Nat) (s : Store) :
    List SearchRow :=
  let s1 := if q ≠ "" then s.filter (fun d => decide (ilikeName q d)) else s
  let s2 := if category ≠ "" then
    s1.filter (fun d => decide (d.domain_category = some category)) else s1
  let s3 := if agency ≠ "" then
    s2.filter (fun d => decide (d.dataset_information_agency = some agency)) else s2
  ((orderByDesc (·.page_views_total) s3).take limit).map searchRowOf

/-! ## Claims C1 and C2 -/

/-- **C1.** For every store state and every limit `N`, `top-viewed` returns at
most `N` records and the returned list is sorted non-increasing by total
views under the Postgres descending order `descLe` (absent/`NULL`
`page_views_total` sorts first, i.e. as greatest); the tie-break order is
deterministic because the operation is a function of the store. -/
theorem c1_top_viewed_at_most_and_sorted (s : Store) (N : Nat) :
    (get_top_viewed_datasets N s).length ≤ N ∧
    ((get_top_viewed_datasets N s).map (·.page_views_total)).Pairwise descLe := by
  constructor
  · simp [get_top_viewed_datasets, List.length_take]
  · have hs : (orderByDesc (·.page_views_total) s).Pairwise
        (byKey (·.page_views_total)) :=
      List.sorted_insertionSort _ s
    have ht : ((orderByDesc (·.page_views_total) s).take N).Pairwise
        (byKey (·.page_views_total)) :=
      List.Pairwise.sublist (List.take_sublist N _) hs
    rw [get_top_viewed_datasets, List.map_map, List.pairwise_map]
    exact ht

/-- **C2.** `search` with `q=""`, `category=""`, `agency=""`, `limit=50`
returns the same records in the same order as `top-viewed` with `limit=50`,
once both are restricted to their common fields
`(id, name, agency, category, page_views_total, download_count)`. -/
theorem c2_search_default_refines_top_viewed (s : Store) :
    (search_datasets "" "" "" 50 s).map
        (fun r => (r.id, r.name, r.agency, r.category,
          r.page_views_total, r.download_count)) =
      (get_top_viewed_datasets 50 s).map
        (fun r => (r.id, r.name, r.agency, r.category,
          r.page_views_total, r.download_count)) := by
  have key : ∀ l : Store,
      (l.map searchRowOf).map (fun r => (r.id, r.name, r.agency, r.category,
          r.page_views_total, r.download_count)) =
        (l.map topRowOf).map (fun r => (r.id, r.name, r.agency, r.category,
          r.page_views_total, r.download_count)) := by
    intro l
    rw [List.map_map, List.map_map]
    exact List.map_congr_left fun d _ => rfl
  simp only [search_datasets, get_top_viewed_datasets, ne_eq,
    eq_self_iff_true, not_true_eq_false, if_false]
  exact key _

/-! ## `/api/stats/overview` -/

/-- Output of the overview endpoint. -/
structure OverviewStats where
  total_datasets : Nat
  total_page_views : Int
  total_downloads : Int
  avg_weekly_views : Rat
deriving DecidableEq

/-- `GET /api/stats/overview` (`get_overview_stats`): `count(*)`, null-safe
sums (`scalar() or 0`), and the average of weekly views rounded to two
decimals. -/
def get_overview_stats (s : Store) : OverviewStats :=
  { total_datasets := s.length
    total_page_views := (sqlSum (·.page_views_total) s).getD 0
    total_downloads := (sqlSum (·.download_count) s).getD 0
    avg_weekly_views := pyRound2 ((sqlAvg (·.page_views_last_week) s).getD 0) }

/-! ## `/api/analytics/publication-timeline` -/

/-- Output row of the timeline endpoint. -/
structure TimelineEntry where
  year : Int
  count : Nat
deriving DecidableEq

/-- The years of all records with a non-null `publication_date`
(`extract('year', publication_date)` over the non-null rows). -/
def pubYears (s : Store) : List Int :=
  s.filterMap fun d => d.publication_date.map (·.year)

/-- The grouped query of the timeline endpoint: one row per distinct year
among `pubYears`, with its multiplicity, ordered by year ascending. -/
def timelineQuery (s : Store) : List (Int × Nat) :=
  ((List.insertionSort (· ≤ ·) (pubYears s)).dedup).map
    fun y => (y, (pubYears s).count y)

/-- `GET /api/analytics/publication-timeline` (`get_publication_timeline`):
the grouped rows, kept only when `r.year and r.year >= 2000` (Python
truthiness: year `0` is falsy, and the `>= 2000` bound). -/
def get_publication_timeline (s : Store) : List TimelineEntry :=
  ((timelineQuery s).filter fun r => decide (r.1 ≠ 0 ∧ 2000 ≤ r.1)).map
    fun r => ⟨r.1, r.2⟩

theorem pyRound2_zero : pyRound2 0 = 0 := by
  have hf : (0 : Rat).floor = 0 := by decide
  simp [pyRound2, roundHalfEven, hf]

/-! ## Claim C3 -/

/-- **C3.** On the empty store the overview endpoint does not error and
returns exactly zeroes: `total_datasets = 0`, `total_page_views = 0`,
`total_downloads = 0`, `avg_weekly_views = 0.0`. -/
theorem c3_overview_empty_store :
    get_overview_stats [] =
      { total_datasets := 0
        total_page_views := 0
        total_downloads := 0
        avg_weekly_views := 0 } := by
  have h3 : sqlAvg (·.page_views_last_week) [] = none := rfl
  simp [get_overview_stats, h3, pyRound2_zero]
  exact ⟨rfl, rfl⟩

/-! ## Counting helpers for the group-by endpoints -/

theorem sum_map_add_nat (f g : α → Nat) (l : List α) :
    (l.map fun a => f a + g a).sum = (l.map f).sum + (l.map g).sum := by
  induction l with
  | nil => rfl
  | cons a l ih => simp [ih]; omega

theorem sum_indicator_zero [DecidableEq K] (x : K) :
    ∀ ks : List K, x ∉ ks → (ks.map fun k => if x = k then 1 else 0).sum = 0
  | [], _ => rfl
  | a :: ks, h => by
    have hax : x ≠ a := fun he => h (he ▸ List.mem_cons_self a ks)
    have hm : x ∉ ks := fun hm => h (List.mem_cons_of_mem a hm)
    simp [if_neg hax, sum_indicator_zero x ks hm]

theorem sum_indicator_le_one [DecidableEq K] (x : K) :
    ∀ ks : List K, ks.Nodup → (ks.map fun k => if x = k then 1 else 0).sum ≤ 1
  | [], _ => by simp
  | a :: ks, h => by
    rcases List.nodup_cons.mp h with ⟨ha, hk⟩
    by_cases hax : x = a
    · subst hax
      have hz : (ks.map fun k => if x = k then 1 else 0).sum = 0 :=
        sum_indicator_zero x ks ha
      simp [hz]
    · simp only [List.map_cons, List.sum_cons, if_neg hax]
      have := sum_indicator_le_one x ks hk
      omega

/-- Summing the multiplicities of pairwise-distinct keys cannot exceed the
length of the list being counted. -/
theorem sum_count_le [DecidableEq K] (ks : List K) (hks : ks.Nodup) :
    ∀ l : List K, (ks.map fun k => List.count k l).sum ≤ l.length
  | [] => by simp
  | x :: l => by
    have hsplit : (ks.map fun k => List.count k (x :: l)).sum
        = (ks.map fun k => List.count k l).sum
          + (ks.map fun k => if x = k then 1 else 0).sum := by
      rw [← sum_map_add_nat]
      exact congrArg List.sum (List.map_congr_left fun a _ => by
        simp [List.count_cons, beq_iff_eq])
    rw [hsplit]
    have h1 := sum_count_le ks hks l
    have h2 := sum_indicator_le_one x ks hks
    simp only [List.length_cons]
    omega

/-- `pubYears` has one entry per record with a non-null `publication_date`. -/
theorem pubYears_length (s : Store) :
    (pubYears s).length = (s.filter fun d => d.publication_date.isSome).length := by
  induction s with
  | nil => rfl
  | cons d s ih =>
    cases h : d.publication_date <;>
      simp [pubYears, List.filterMap_cons, List.filter_cons, h] <;>
      simpa [pubYears] using ih

/-! ## Claim C4 -/

/-- **C4.** The publication timeline has one entry per distinct year drawn
from the non-null `publication_date` values (its year list is strictly
ascending, and for years in the kept range an entry exists iff some record
has that year), no returned year is below 2000, and the counts sum to at
most the number of records with a non-null `publication_date`. -/
theorem c4_publication_timeline (s : Store) :
    (∀ e ∈ get_publication_timeline s, 2000 ≤ e.year) ∧
    ((get_publication_timeline s).map (·.year)).Pairwise (· < ·) ∧
    (∀ y : Int, 2000 ≤ y →
      ((∃ e ∈ get_publication_timeline s, e.year = y) ↔ y ∈ pubYears s)) ∧
    ((get_publication_timeline s).map (·.count)).sum ≤ (pubYears s).length ∧
    (pubYears s).length = (s.filter fun d => d.publication_date.isSome).length := by
  have hsorted : ((List.insertionSort (· ≤ ·) (pubYears s)).dedup).Pairwise
      (α := Int) (· ≤ ·) :=
    List.Pairwise.sublist (List.dedup_sublist _) (List.sorted_insertionSort _ _)
  have hdnd : ((List.insertionSort (· ≤ ·) (pubYears s)).dedup).Nodup :=
    List.nodup_dedup _
  have hdlt : ((List.insertionSort (· ≤ ·) (pubYears s)).dedup).Pairwise
      (α := Int) (· < ·) :=
    (hsorted.and hdnd).imp fun h => lt_of_le_of_ne h.1 h.2
  have hmem : ∀ y : Int,
      (y ∈ (List.insertionSort (· ≤ ·) (pubYears s)).dedup) ↔ y ∈ pubYears s := by
    intro y
    rw [List.mem_dedup]
    exact (List.perm_insertionSort _ _).mem_iff
  have hyear : (timelineQuery s).map (·.1)
      = (List.insertionSort (· ≤ ·) (pubYears s)).dedup := by
    rw [timelineQuery, List.map_map]
    exact (List.map_congr_left fun a _ => rfl).trans (List.map_id _)
  refine ⟨?_, ?_, ?_, ?_, pubYears_length s⟩
  · intro e he
    simp only [get_publication_timeline, List.mem_map, List.mem_filter,
      decide_eq_true_eq] at he
    obtain ⟨r, ⟨_, _, h2000⟩, rfl⟩ := he
    exact h2000
  · have hout : (get_publication_timeline s).map (·.year)
        = ((timelineQuery s).filter fun r => decide (r.1 ≠ 0 ∧ 2000 ≤ r.1)).map
            (·.1) := by
      rw [get_publication_timeline, List.map_map]
      exact List.map_congr_left fun a _ => rfl
    rw [hout]
    exact List.Pairwise.sublist
      (List.Sublist.map _ (List.filter_sublist _)) (hyear ▸ hdlt)
  · intro y hy
    constructor
    · rintro ⟨e, he, rfl⟩
      simp only [get_publication_timeline, List.mem_map, List.mem_filter,
        decide_eq_true_eq] at he
      obtain ⟨r, ⟨hrq, _⟩, rfl⟩ := he
      simp only [timelineQuery, List.mem_map] at hrq
      obtain ⟨y', hy', rfl⟩ := hrq
      exact (hmem y').mp hy'
    · intro hys
      refine ⟨⟨y, (pubYears s).count y⟩, ?_, rfl⟩
      simp only [get_publication_timeline, List.mem_map, List.mem_filter,
        decide_eq_true_eq]
      refine ⟨(y, (pubYears s).count y), ⟨?_, ?_, hy⟩, rfl⟩
      · simp only [timelineQuery, List.mem_map]
        exact ⟨y, (hmem y).mpr hys, rfl⟩
      · omega
  · have hout : (get_publication_timeline s).map (·.count)
        = ((timelineQuery s).filter fun r => decide (r.1 ≠ 0 ∧ 2000 ≤ r.1)).map
            (·.2) := by
      rw [get_publication_timeline, List.map_map]
      exact List.map_congr_left fun a _ => rfl
    have hsub : List.Sublist
        (((timelineQuery s).filter
          fun r => decide (r.1 ≠ 0 ∧ 2000 ≤ r.1)).map (·.2))
        ((timelineQuery s).map (·.2)) :=
      List.Sublist.map _ (List.filter_sublist _)
    have hcnt : (timelineQuery s).map (·.2)
        = ((List.insertionSort (· ≤ ·) (pubYears s)).dedup).map
            (fun y => List.count y (pubYears s)) := by
      rw [timelineQuery, List.map_map]
      exact List.map_congr_left fun a _ => rfl
    have hle := sum_count_le _ hdnd (pubYears s)
    rw [hout]
    calc (((timelineQuery s).filter
            fun r => decide (r.1 ≠ 0 ∧ 2000 ≤ r.1)).map (·.2)).sum
        ≤ ((timelineQuery s).map (·.2)).sum :=
          List.Sublist.sum_le_sum hsub fun a _ => Nat.zero_le a
      _ ≤ (pubYears s).length := by rw [hcnt]; exact hle

/-! ## `/api/analytics/engagement-metrics` -/

/-- Output row of the engagement endpoint. -/
structure EngagementRow where
  name : String
  weekly_views : Int
  monthly_views : Int
  total_views : Int
  downloads : Int
  category : Option String
deriving DecidableEq

/-- The rows selected by the engagement query: `page_views_total > 0`
(SQL comparison, so a `NULL` value never matches), ordered by total views
descending, first 20. -/
def engagementQuery (s : Store) : Store :=
  (orderByDesc (·.page_views_total)
    (s.filter fun d =>
      match d.page_views_total with
      | some v => decide (0 < v)
      | none => false)).take 20

/-- One output row: Python evaluates `len(r.name)`, so a `NULL` name raises
(`none`); otherwise the name is truncated to 50 characters plus `"..."` when
longer than 50, and the numeric fields fall back to 0 (`or 0`). -/
def engagementRow (d : Dataset) : Option EngagementRow :=
  d.name.map fun n =>
    { name := if 50 < n.length then n.take 50 ++ "..." else n
      weekly_views := d.page_views_last_week.getD 0
      monthly_views := d.page_views_last_month.getD 0
      total_views := d.page_views_total.getD 0
      downloads := d.download_count.getD 0
      category := d.domain_category }

/-- All-or-nothing evaluation of a Python list comprehension whose element
expression may raise: `none` as soon as any element fails. -/
def optTraverse (f : α → Option β) : List α → Option (List β)
  | [] => some []
  | a :: l =>
    match f a, optTraverse f l with
    | some b, some bs => some (b :: bs)
    | _, _ => none

/-- `GET /api/analytics/engagement-metrics` (`get_engagement_metrics`):
`none` models the unhandled `TypeError` (HTTP 500) raised when any
selected record has a `NULL` name. -/
def get_engagement_metrics (s : Store) : Option (List EngagementRow) :=
  optTraverse engagementRow (engagementQuery s)

theorem optTraverse_isSome {f : α → Option β} :
    ∀ l : List α, (optTraverse f l).isSome = true ↔ ∀ a ∈ l, (f a).isSome = true
  | [] => by simp [optTraverse]
  | a :: l => by
    have ih := optTraverse_isSome (f := f) l
    cases hfa : f a with
    | none => simp [optTraverse, hfa]
    | some b =>
      cases hl : optTraverse f l with
      | none =>
        rw [hl] at ih
        simp only [optTraverse, hfa, hl, Option.isSome_none] at ih ⊢
        simp only [Bool.false_eq_true, false_iff] at ih ⊢
        intro hc
        exact ih fun x hx => hc x (List.mem_cons_of_mem a hx)
      | some bs =>
        rw [hl] at ih
        simp only [optTraverse, hfa, hl, Option.isSome_some, true_iff] at ih ⊢
        intro x hx
        rcases List.mem_cons.mp hx with rfl | hx
        · simp [hfa]
        · exact ih x hx

theorem optTraverse_forall₂ {f : α → Option β} :
    ∀ {l : List α} {out : List β}, optTraverse f l = some out →
      List.Forall₂ (fun a b => f a = some b) l out
  | [], out, h => by
    simp only [optTraverse, Option.some.injEq] at h
    exact h ▸ List.Forall₂.nil
  | a :: l, out, h => by
    cases hfa : f a with
    | none => simp [optTraverse, hfa] at h
    | some b =>
      cases hl : optTraverse f l with
      | none => simp [optTraverse, hfa, hl] at h
      | some bs =>
        simp only [optTraverse, hfa, hl, Option.some.injEq] at h
        exact h ▸ List.Forall₂.cons hfa (optTraverse_forall₂ hl)

/-! ## Claims C5 and C9 -/

/-- **C5.** In the engagement output, each returned name is the selected
record's name truncated to its first 50 characters plus a literal `"..."`
exactly when the name exceeds 50 characters, and is returned unmodified
otherwise (so a 51-character name is truncated and a 50-character name is
not). -/
theorem c5_engagement_truncation (s : Store) (out : List EngagementRow)
    (h : get_engagement_metrics s = some out) :
    List.Forall₂ (fun d e => ∀ n, d.name = some n →
      (50 < n.length → e.name = n.take 50 ++ "...") ∧
      (n.length ≤ 50 → e.name = n)) (engagementQuery s) out := by
  refine (optTraverse_forall₂ h).imp ?_
  intro d e hde n hn
  rw [engagementRow, hn, Option.map_some'] at hde
  obtain rfl : _ = e := Option.some_inj.mp hde
  constructor
  · intro hlen
    simp [if_pos hlen]
  · intro hlen
    simp [if_neg (by omega : ¬50 < n.length)]

/-- **C9.** The engagement endpoint succeeds iff every record it selects
(total views positive, top 20 by total views) has a non-null name; a `NULL`
name makes the truncation step raise, i.e. the result is `none`. -/
theorem c9_engagement_success_iff_names (s : Store) :
    (get_engagement_metrics s).isSome = true ↔
      ∀ d ∈ engagementQuery s, d.name.isSome = true := by
  rw [get_engagement_metrics, optTraverse_isSome]
  constructor
  · intro h d hd
    have := h d hd
    rwa [engagementRow, Option.isSome_map'] at this
  · intro h d hd
    rw [engagementRow, Option.isSome_map']
    exact h d hd

/-! ## `/api/analytics/by-agency` and `/api/analytics/by-category` -/

/-- The records of one group: those whose grouping column equals the (non-null)
key `a`.  Records with a `NULL` grouping column belong to no group. -/
def groupRecords (key : Dataset → Option String) (a : String) (s : Store) : Store :=
  s.filter fun d => decide (key d = some a)

/-- The distinct non-null values of the grouping column (`GROUP BY key` after
`key IS NOT NULL`). -/
def groupKeys (key : Dataset → Option String) (s : Store) : List String :=
  (s.filterMap key).dedup

/-- The group keys ordered by `sum(page_views_total)` descending
(`ORDER BY total_views DESC`, an all-`NULL` group's sum being `NULL` and
sorting first). -/
def sortedKeys (key : Dataset → Option String) (s : Store) : List String :=
  List.insertionSort
    (byKey fun a => sqlSum (·.page_views_total) (groupRecords key a s))
    (groupKeys key s)

/-- Output row of the by-agency endpoint. -/
structure AgencyRow where
  agency : String
  dataset_count : Nat
  total_views : Int
  total_downloads : Int
deriving DecidableEq

/-- Output row of the by-category endpoint. -/
structure CategoryRow where
  category : String
  dataset_count : Nat
  total_views : Int
  total_downloads : Int
deriving DecidableEq

def agencyRowOf (s : Store) (a : String) : AgencyRow :=
  { agency := a
    dataset_count := (groupRecords (·.dataset_information_agency) a s).length
    total_views := (sqlSum (·.page_views_total)
      (groupRecords (·.dataset_information_agency) a s)).getD 0
    total_downloads := (sqlSum (·.download_count)
      (groupRecords (·.dataset_information_agency) a s)).getD 0 }

def categoryRowOf (s : Store) (c : String) : CategoryRow :=
  { category := c
    dataset_count := (groupRecords (·.domain_category) c s).length
    total_views := (sqlSum (·.page_views_total)
      (groupRecords (·.domain_category) c s)).getD 0
    total_downloads := (sqlSum (·.download_count)
      (groupRecords (·.domain_category) c s)).getD 0 }

/-- `GET /api/analytics/by-agency` (`get_analytics_by_agency`): group by
non-null agency, order by summed views descending, top 15. -/
def get_analytics_by_agency (s : Store) : List AgencyRow :=
  ((sortedKeys (·.dataset_information_agency) s).take 15).map (agencyRowOf s)

/-- `GET /api/analytics/by-category` (`get_analytics_by_category`): same
grouping on category, no limit. -/
def get_analytics_by_category (s : Store) : List CategoryRow :=
  (sortedKeys (·.domain_category) s).map (categoryRowOf s)

/-! ## `/api/filters/categories` and `/api/filters/agencies` -/

/-- `GET /api/filters/categories` (`get_categories`): SQL-distinct non-null
categories, then the Python comprehension `if c[0]` drops falsy values,
i.e. the empty string. -/
def get_categories (s : Store) : List String :=
  ((s.filterMap (·.domain_category)).dedup).filter fun c => decide (c ≠ "")

/-- `GET /api/filters/agencies` (`get_agencies`). -/
def get_agencies (s : Store) : List String :=
  ((s.filterMap (·.dataset_information_agency)).dedup).filter fun a =>
    decide (a ≠ "")

theorem length_groupRecords (key : Dataset → Option String) (a : String) :
    ∀ s : Store, (groupRecords key a s).length = List.count a (s.filterMap key)
  | [] => rfl
  | d :: s => by
    have ih := length_groupRecords key a s
    rw [groupRecords] at ih
    rw [groupRecords, List.filter_cons, List.filterMap_cons]
    cases h : key d with
    | none =>
      rw [if_neg (by simp [h])]
      exact ih
    | some b =>
      by_cases hab : b = a
      · subst hab
        rw [if_pos (by simp [h])]
        simp only [List.length_cons, List.count_cons, beq_self_eq_true,
          if_true, ih]
      · rw [if_neg (by simp [h, hab])]
        have hba : (b == a) = false := by simp [hab]
        simp only [List.count_cons, hba, Bool.false_eq_true, if_false, ih]
        omega

theorem nodup_sortedKeys (key : Dataset → Option String) (s : Store) :
    (sortedKeys key s).Nodup :=
  ((List.perm_insertionSort _ _).nodup_iff).mpr (List.nodup_dedup _)

theorem mem_sortedKeys {key : Dataset → Option String} {s : Store} {a : String} :
    a ∈ sortedKeys key s ↔ ∃ d ∈ s, key d = some a := by
  rw [sortedKeys, (List.perm_insertionSort _ _).mem_iff, groupKeys,
    List.mem_dedup, List.mem_filterMap]

/-! ## Claim C6 -/

/-- **C6.** By-agency analytics: at most 15 groups; the groups are sorted by
their summed total views descending (Postgres order `descLe`, a `NULL` group
sum sorting first); every group's `dataset_count` counts exactly the records
whose agency equals the group's non-null key, so records with a null agency
belong to no group; and the returned `dataset_count`s sum to at most the
store's record count. -/
theorem c6_by_agency_groups (s : Store) :
    (get_analytics_by_agency s).length ≤ 15 ∧
    ((get_analytics_by_agency s).map (·.dataset_count)).sum ≤ s.length ∧
    (get_analytics_by_agency s).Pairwise (fun x y =>
      descLe
        (sqlSum (·.page_views_total)
          (groupRecords (·.dataset_information_agency) x.agency s))
        (sqlSum (·.page_views_total)
          (groupRecords (·.dataset_information_agency) y.agency s))) ∧
    ∀ e ∈ get_analytics_by_agency s,
      e.dataset_count
        = (groupRecords (·.dataset_information_agency) e.agency s).length := by
  refine ⟨?_, ?_, ?_, ?_⟩
  · simp [get_analytics_by_agency, List.length_take]
  · have h1 : (get_analytics_by_agency s).map (·.dataset_count)
        = ((sortedKeys (·.dataset_information_agency) s).take 15).map
            (fun a => List.count a
              (s.filterMap (·.dataset_information_agency))) := by
      rw [get_analytics_by_agency, List.map_map]
      exact List.map_congr_left fun a _ => length_groupRecords _ a s
    have hnd : ((sortedKeys (·.dataset_information_agency) s).take 15).Nodup :=
      List.Nodup.sublist (List.take_sublist _ _) (nodup_sortedKeys _ _)
    rw [h1]
    calc (((sortedKeys (·.dataset_information_agency) s).take 15).map
            (fun a => List.count a
              (s.filterMap (·.dataset_information_agency)))).sum
        ≤ (s.filterMap (·.dataset_information_agency)).length :=
          sum_count_le _ hnd _
      _ ≤ s.length := List.length_filterMap_le _ _
  · have hp : (sortedKeys (·.dataset_information_agency) s).Pairwise
        (byKey fun a => sqlSum (·.page_views_total)
          (groupRecords (·.dataset_information_agency) a s)) :=
      List.sorted_insertionSort _ _
    have ht := List.Pairwise.sublist (List.take_sublist 15 _) hp
    rw [get_analytics_by_agency, List.pairwise_map]
    exact ht
  · intro e he
    simp only [get_analytics_by_agency, List.mem_map] at he
    obtain ⟨a, _, rfl⟩ := he
    rfl

/-! ## Claim C10 -/

/-- **C10.** Every returned group row of both grouped-analytics endpoints has
a grouping key that occurs (non-null) in some record, a `dataset_count` of at
least 1, and integer totals in which a `NULL` sum (a group none of whose
members has the summed column) is rendered as 0. -/
theorem c10_group_row_invariants (s : Store) :
    (∀ e ∈ get_analytics_by_agency s,
      1 ≤ e.dataset_count ∧
      (∃ d ∈ s, d.dataset_information_agency = some e.agency) ∧
      ((groupRecords (·.dataset_information_agency) e.agency s).filterMap
          (·.page_views_total) = [] → e.total_views = 0) ∧
      ((groupRecords (·.dataset_information_agency) e.agency s).filterMap
          (·.download_count) = [] → e.total_downloads = 0)) ∧
    (∀ e ∈ get_analytics_by_category s,
      1 ≤ e.dataset_count ∧
      (∃ d ∈ s, d.domain_category = some e.category) ∧
      ((groupRecords (·.domain_category) e.category s).filterMap
          (·.page_views_total) = [] → e.total_views = 0) ∧
      ((groupRecords (·.domain_category) e.category s).filterMap
          (·.download_count) = [] → e.total_downloads = 0)) := by
  constructor
  · intro e he
    simp only [get_analytics_by_agency, List.mem_map] at he
    obtain ⟨a, ha, rfl⟩ := he
    have hmem : ∃ d ∈ s, d.dataset_information_agency = some a :=
      mem_sortedKeys.mp (List.mem_of_mem_take ha)
    obtain ⟨d, hd, hda⟩ := hmem
    have hdg : d ∈ groupRecords (·.dataset_information_agency) a s :=
      List.mem_filter.mpr ⟨hd, by simp [hda]⟩
    refine ⟨List.length_pos_of_mem hdg, ⟨d, hd, hda⟩, ?_, ?_⟩
    · intro hfm
      have hfm' : (groupRecords (·.dataset_information_agency) a s).filterMap
          (·.page_views_total) = [] := hfm
      simp [agencyRowOf, sqlSum, hfm']
    · intro hfm
      have hfm' : (groupRecords (·.dataset_information_agency) a s).filterMap
          (·.download_count) = [] := hfm
      simp [agencyRowOf, sqlSum, hfm']
  · intro e he
    simp only [get_analytics_by_category, List.mem_map] at he
    obtain ⟨a, ha, rfl⟩ := he
    have hmem : ∃ d ∈ s, d.domain_category = some a := mem_sortedKeys.mp ha
    obtain ⟨d, hd, hda⟩ := hmem
    have hdg : d ∈ groupRecords (·.domain_category) a s :=
      List.mem_filter.mpr ⟨hd, by simp [hda]⟩
    refine ⟨List.length_pos_of_mem hdg, ⟨d, hd, hda⟩, ?_, ?_⟩
    · intro hfm
      have hfm' : (groupRecords (·.domain_category) a s).filterMap
          (·.page_views_total) = [] := hfm
      simp [categoryRowOf, sqlSum, hfm']
    · intro hfm
      have hfm' : (groupRecords (·.domain_category) a s).filterMap
          (·.download_count) = [] := hfm
      simp [categoryRowOf, sqlSum, hfm']

/-! ## Claim C7 -/

/-- A store whose single record carries the empty string as its (non-null)
category and agency. -/
def c7Store : Store :=
  [{ id := "empty-string-demo"
     name := none
     description := none
     attribution := none
     type := none
     data_updated_at := none
     page_views_last_week := none
     page_views_last_month := none
     page_views_total := none
     download_count := none
     publication_date := none
     domain_category := some ""
     domain_tags := none
     dataset_information_agency := some ""
     link := none }]

/-- **C7, counterexample.** The empty string is a stored non-null category
(and agency) value, yet it does not appear in the output of either list
endpoint: the Python comprehensions `if c[0]` / `if a[0]` drop falsy values. -/
theorem c7_counterexample_empty_string :
    (∃ d ∈ c7Store, d.domain_category = some "") ∧
    "" ∉ get_categories c7Store ∧
    (∃ d ∈ c7Store, d.dataset_information_agency = some "") ∧
    "" ∉ get_agencies c7Store := by
  decide

/-- **C7, amended.** `list-categories` returns exactly the distinct non-null
**non-empty** category values present in the store, and `list-agencies`
likewise for agency values. -/
theorem c7_distinct_nonempty_values (s : Store) :
    ((get_categories s).Nodup ∧ ∀ c : String,
      c ∈ get_categories s ↔ (c ≠ "" ∧ ∃ d ∈ s, d.domain_category = some c)) ∧
    ((get_agencies s).Nodup ∧ ∀ a : String,
      a ∈ get_agencies s ↔
        (a ≠ "" ∧ ∃ d ∈ s, d.dataset_information_agency = some a)) := by
  refine ⟨⟨List.Nodup.filter _ (List.nodup_dedup _), ?_⟩,
    List.Nodup.filter _ (List.nodup_dedup _), ?_⟩
  · intro c
    rw [get_categories, List.mem_filter, List.mem_dedup, List.mem_filterMap]
    simp only [decide_eq_true_eq]
    exact and_comm
  · intro a
    rw [get_agencies, List.mem_filter, List.mem_dedup, List.mem_filterMap]
    simp only [decide_eq_true_eq]
    exact and_comm

/-! ## The dispatcher and claim C8 -/

/-- One HTTP request to the Query Service, with its query parameters. -/
inductive Request where
  | root
  | overview
  | topViewed (limit : Nat)
  | topDownloaded (limit : Nat)
  | byAgency
  | byCategory
  | timeline
  | engagement
  | search (q category agency : String) (limit : Nat)
  | categories
  | agencies
deriving DecidableEq

/-- One JSON response (or the generic 500 produced by an unhandled
exception). -/
inductive Response where
  | message (text : String)
  | overview (o : OverviewStats)
  | datasets (rows : List TopRow)
  | agencyRows (rows : List AgencyRow)
  | categoryRows (rows : List CategoryRow)
  | timelineRows (rows : List TimelineEntry)
  | engagementRows (rows : List EngagementRow)
  | searchRows (rows : List SearchRow)
  | strings (values : List String)
  | serverError
deriving DecidableEq

/-- The app's request dispatch: every route of `main.py`, each handler run
against the store it receives, which it returns unchanged (every handler
only issues SELECTs; there is no INSERT/UPDATE/DELETE path). -/
def handle : Request → Store → Response × Store
  | .root, s => (.message "NYC Datasets Dashboard API", s)
  | .overview, s => (.overview (get_overview_stats s), s)
  | .topViewed n, s => (.datasets (get_top_viewed_datasets n s), s)
  | .topDownloaded n, s => (.datasets (get_top_downloaded_datasets n s), s)
  | .byAgency, s => (.agencyRows (get_analytics_by_agency s), s)
  | .byCategory, s => (.categoryRows (get_analytics_by_category s), s)
  | .timeline, s => (.timelineRows (get_publication_timeline s), s)
  | .engagement, s =>
    (match get_engagement_metrics s with
     | some rows => .engagementRows rows
     | none => .serverError, s)
  | .search q c a n, s => (.searchRows (search_datasets q c a n s), s)
  | .categories, s => (.strings (get_categories s), s)
  | .agencies, s => (.strings (get_agencies s), s)

/-- **C8.** Every operation of the Query Service leaves the store unchanged,
on the success and on the error path alike: the records after any request
are exactly the records before. -/
theorem c8_handlers_preserve_store (r : Request) (s : Store) :
    (handle r s).2 = s := by
  cases r <;> rfl

/-! ## Concrete witness data -/

/-- A record with every nullable column `NULL`. -/
def emptyRecord : Dataset :=
  { id := ""
    name := none
    description := none
    attribution := none
    type := none
    data_updated_at := none
    page_views_last_week := none
    page_views_last_month := none
    page_views_total := none
    download_count := none
    publication_date := none
    domain_category := none
    domain_tags := none
    dataset_information_agency := none
    link := none }

/-- A 50-character name. -/
def name50 : String := "01234567890123456789012345678901234567890123456789"

/-- A 51-character name. -/
def name51 : String := name50 ++ "X"

/-- Two viewed records, one with a 51-character name and one with a
50-character name. -/
def c5Store : Store :=
  [{ emptyRecord with
      id := "long"
      name := some name51
      page_views_total := some 5 },
   { emptyRecord with
      id := "fifty"
      name := some name50
      page_views_total := some 3 }]

set_option maxRecDepth 4000 in
theorem c5_truncation_witness :
    List.Forall₂ (fun d e => ∀ n, d.name = some n →
      (50 < n.length → e.name = n.take 50 ++ "...") ∧
      (n.length ≤ 50 → e.name = n)) (engagementQuery c5Store)
      ([{ name := name50 ++ "..."
          weekly_views := 0
          monthly_views := 0
          total_views := 5
          downloads := 0
          category := none },
        { name := name50
          weekly_views := 0
          monthly_views := 0
          total_views := 3
          downloads := 0
          category := none }] : List EngagementRow) :=
  c5_engagement_truncation c5Store _ (by decide)
